import Mathlib

set_option maxHeartbeats 1000000

/-!
Shallow embedding of the Telegram temporary-email bot worker
(`src/worker.js` and `src/unnamed/part_000..part_002`).

The repository is a collection of near-duplicate full-file variants of the
same Cloudflare Worker.  We model the pieces the claims cite:

* the "actions-table" variant (`src/worker.js` lines 405-807; its inbox and
  deletion functions are byte-identical to `src/unnamed/part_001` lines
  208-304, and its `createNewEmail`/`deleteEmail` are identical to the
  third `worker.js` variant at lines 1040-1067 / 1235-1249);
* the first `worker.js` variant's switch-based callback router
  (lines 220-246) and its handlers;
* the `part_002` v7.1 state machine (`handleMessage`/`handleCallbackQuery`,
  lines 157-263) and the v2.0 `createNewEmail`/`deleteEmail`
  (lines 645-668 / 847-856);
* the percent-encoding helpers and token parse of `part_002`
  (lines 16-18 and 208-210).

The KV store (`env.MAIL_BOT_DB`) is modelled as association lists keyed by
the raw id string (the `user:`/`email:` key namespaces appear in the
recorded effect labels).  Telegram transport calls are recorded as effects;
the message texts and keyboards are elided except where a claim depends on
them (the "You are banned." callback answer).  `new Date().toISOString()`
is an explicit `now : String` parameter.
-/

/-- One observable effect of a handler: a KV-store operation, a Telegram
transport call, a dispatched state/command handler, or a thrown JS error. -/
inductive Ev where
  | ack (text : String)
  | kvGet (key : String)
  | kvPut (key : String)
  | kvDel (key : String)
  | kvList (ns : String)
  | sendMsg
  | editMsg
  | sendDoc
  | jsError
  | run (handler : String)
  | cmd (handler : String)
  deriving DecidableEq, Repr

/-- A stored mail message (the `read` flag exists in the read/unread
variants; the variants that never touch it simply ignore the field). -/
structure Msg where
  sender : String
  subject : String
  body : String
  receivedAt : String
  read : Bool
  deriving DecidableEq, Repr

/-- A mailbox record `{ inbox, owner }` stored under `email:{address}`. -/
structure Mailbox where
  inbox : List Msg
  owner : Int
  deriving DecidableEq, Repr

/-- The user record of the `worker.js` variants: `{ createdEmails, lastActive }`. -/
structure UserRec where
  createdEmails : List String
  lastActive : Option String
  deriving DecidableEq, Repr

/-- The KV store, split by key namespace: `user:{id}` records and
`email:{address}` records (keys store the raw id / address string). -/
structure Store where
  users : List (String × UserRec)
  mails : List (String × Mailbox)
  deriving DecidableEq, Repr

/-- KV `get` on an association list (first matching key). -/
def aGet {β : Type} (k : String) : List (String × β) → Option β
  | [] => none
  | (k', v') :: t => if k' = k then some v' else aGet k t

/-- KV `put` on an association list: replace the first binding in place,
append if absent. -/
def aSet {β : Type} (k : String) (v : β) : List (String × β) → List (String × β)
  | [] => [(k, v)]
  | (k', v') :: t => if k' = k then (k, v) :: t else (k', v') :: aSet k v t

/-- KV `delete` on an association list. -/
def aDel {β : Type} (k : String) (l : List (String × β)) : List (String × β) :=
  l.filter (fun p => decide (p.1 ≠ k))

/-- ASCII lower-casing of one character (model of the relevant fragment of
`String.prototype.toLowerCase`; every call site first validates its input
against `/^[a-z0-9.-]+$/` or compares against ASCII command strings). -/
def lowerChar (c : Char) : Char :=
  if 65 ≤ c.toNat ∧ c.toNat ≤ 90 then Char.ofNat (c.toNat + 32) else c

/-- ASCII model of `String.prototype.toLowerCase`. -/
def lowerStr (s : String) : String :=
  String.mk (s.data.map lowerChar)

/-- One character of the local-part character class `[a-z0-9.-]`. -/
def validChar (c : Char) : Bool :=
  decide (97 ≤ c.toNat ∧ c.toNat ≤ 122) || decide (48 ≤ c.toNat ∧ c.toNat ≤ 57) ||
    c == '.' || c == '-'

/-- The local-part validation `/^[a-z0-9.-]+$/.test(name)` used by every
`createNewEmail` variant. -/
def validName (name : String) : Bool :=
  !(name == "") && name.data.all validChar

/-- `data.split(":")` character-level worker (an empty string yields
`[[]]`, i.e. `[""]`). -/
def jsSplitColon : List Char → List (List Char)
  | [] => [[]]
  | c :: rest =>
    if c = ':' then [] :: jsSplitColon rest
    else
      match jsSplitColon rest with
      | [] => [[c]]
      | h :: t => (c :: h) :: t

/-- JS `data.split(":")` on a string. -/
def splitColonStr (s : String) : List String :=
  (jsSplitColon s.data).map (fun l => String.mk l)

/-- `parseInt(s || d)` as used for page numbers: empty/missing token falls
back to the default; a numeric token is parsed.  (A non-numeric token gives
`NaN` in JS; those tokens are not produced by any button and are modelled
by the fallback.) -/
def parseIntD (s : String) (d : Int) : Int :=
  if s = "" then d else (s.toInt?).getD d

/-- `trackUserActivity` (`worker.js` lines 760-765, identical at 386-391 and
1432-1443): read the user record (defaulting to `{ createdEmails: [] }`),
stamp `lastActive`, write it back. -/
def trackUserActivity (now : String) (chat : Int) (s : Store) : Store × List Ev :=
  let key := "user:" ++ toString chat
  let r :=
    match aGet (toString chat) s.users with
    | some u => { u with lastActive := some now }
    | none => { createdEmails := [], lastActive := some now }
  ({ s with users := aSet (toString chat) r s.users }, [.kvGet key, .kvPut key])

/-- `listUserEmails` (`worker.js` lines 566-578): one read, one send (either
the empty-state text or the address keyboard). -/
def listUserEmails (chat : Int) (s : Store) : Store × List Ev :=
  (s, [.kvGet ("user:" ++ toString chat), .sendMsg])

/-- What `showInboxList` (`worker.js` lines 581-609, = `part_001` 208-245)
renders: missing mailbox, empty mailbox, or one page of rows.  Each row
carries the message's global index (its position in the full list). -/
inductive InboxRender where
  | notFound
  | empty (email : String)
  | page (email : String) (pageNum totalPages : Nat) (rows : List (Nat × Msg))
      (hasPrev hasNext : Bool)
  deriving DecidableEq, Repr

/-- `showInboxList` (`worker.js` lines 581-609, = `part_001` 208-245),
rendered view.  `emailsPerPage = 5`; `totalPages = Math.ceil(n/5)`;
`page = Math.max(1, Math.min(page, totalPages))`;
`emailPage = inbox.slice(start, start + 5)` with `start = (page-1)*5`;
row `index` yields `globalIndex = start + index`; the navigation row has
"prev" iff `page > 1` and "next" iff `page < totalPages`. -/
def showInboxListView (s : Store) (email : String) (page : Int) : InboxRender :=
  match aGet email s.mails with
  | none => .notFound
  | some mb =>
    if mb.inbox.length = 0 then .empty email
    else
      let n := mb.inbox.length
      let totalPages := (n + 4) / 5
      let p := (max 1 (min page (totalPages : Int))).toNat
      let start := (p - 1) * 5
      let rows := ((mb.inbox.drop start).take 5).enum.map (fun im => (start + im.1, im.2))
      .page email p totalPages rows (decide (1 < p)) (decide (p < totalPages))

/-- Effects of `showInboxList`: one mailbox read, one message edit (all
three branches edit exactly once). -/
def showInboxListEvs (email : String) (s : Store) : Store × List Ev :=
  (s, [.kvGet ("email:" ++ email), .editMsg])

/-- Looks up `inbox[emailIndex]` where the index came through `parseInt`;
`none` models a non-numeric index (`inbox[NaN]` is `undefined`). -/
def listGet? (l : List Msg) : Option Nat → Option Msg
  | some i => l[i]?
  | none => none

/-- `inbox` with the element at the (numeric) index replaced. -/
def listSet (l : List Msg) (i : Option Nat) (m : Msg) : List Msg :=
  match i with
  | some j => l.set j m
  | none => l

/-- `inbox.splice(i, 1)` at a (numeric) index. -/
def listErase (l : List Msg) : Option Nat → List Msg
  | some j => l.eraseIdx j
  | none => l

/-- `viewSingleEmail` (`worker.js` lines 611-631, = `part_001` 247-269):
read the mailbox; silently return when the mailbox or the index is gone;
mark unread mail read (one put) before the single edit. -/
def viewSingleEmail (emailAddr : String) (i : Option Nat) (s : Store) : Store × List Ev :=
  let key := "email:" ++ emailAddr
  match aGet emailAddr s.mails with
  | none => (s, [.kvGet key])
  | some mb =>
    match listGet? mb.inbox i with
    | none => (s, [.kvGet key])
    | some m =>
      if m.read then (s, [.kvGet key, .editMsg])
      else
        let mb' := { mb with inbox := listSet mb.inbox i { m with read := true } }
        ({ s with mails := aSet emailAddr mb' s.mails }, [.kvGet key, .kvPut key, .editMsg])

/-- `markEmailUnread` (`worker.js` lines 633-643): flip `read` off when the
index resolves, then re-run `viewSingleEmail` on the updated store. -/
def markEmailUnread (emailAddr : String) (i : Option Nat) (s : Store) : Store × List Ev :=
  let key := "email:" ++ emailAddr
  match aGet emailAddr s.mails with
  | none => (s, [.kvGet key])
  | some mb =>
    let (s1, evs1) :=
      match listGet? mb.inbox i with
      | some m =>
        ({ s with mails := aSet emailAddr { mb with inbox := listSet mb.inbox i { m with read := false } } s.mails },
          [Ev.kvGet key, Ev.kvPut key])
      | none => (s, [Ev.kvGet key])
    let (s2, evs2) := viewSingleEmail emailAddr i s1
    (s2, evs1 ++ evs2)

/-- `deleteSingleEmail` (`worker.js` lines 655-666, = `part_001` 293-304):
splice the message out when the index resolves, edit a success notice, and
re-render the inbox list at page 1 from the updated store.  The third
component is that re-rendered list view. -/
def deleteSingleEmail (emailAddr : String) (i : Option Nat) (s : Store) :
    Store × List Ev × InboxRender :=
  let key := "email:" ++ emailAddr
  match aGet emailAddr s.mails with
  | none => (s, [Ev.kvGet key], .notFound)
  | some mb =>
    let (s1, evs1) :=
      match listGet? mb.inbox i with
      | some _ =>
        ({ s with mails := aSet emailAddr { mb with inbox := listErase mb.inbox i } s.mails },
          [Ev.kvGet key, Ev.kvPut key])
      | none => (s, [Ev.kvGet key])
    (s1, evs1 ++ [Ev.editMsg, Ev.kvGet key, Ev.editMsg], showInboxListView s1 emailAddr 1)

/-- `deleteEmail` (`worker.js` lines 787-798, identical at 272-283 and
1235-1249): filter the address out of the calling chat's `createdEmails`
(when the user record exists), delete the mailbox record, edit a notice. -/
def deleteEmail (chat : Int) (email : String) (s : Store) : Store × List Ev :=
  let userKey := "user:" ++ toString chat
  let emailKey := "email:" ++ email
  let (users1, evs1) :=
    match aGet (toString chat) s.users with
    | some u =>
      (aSet (toString chat)
        { u with createdEmails := u.createdEmails.filter (fun e => decide (e ≠ email)) }
        s.users, [Ev.kvGet userKey, Ev.kvPut userKey])
    | none => (s.users, [Ev.kvGet userKey])
  ({ users := users1, mails := aDel email s.mails }, evs1 ++ [Ev.kvDel emailKey, Ev.editMsg])

/-- `createNewEmail` (`worker.js` lines 770-781, identical at 171-190 and
1040-1067): validate the local-part, reject when the mailbox key already
exists, otherwise create the empty mailbox and push the address
(unconditionally) onto the caller's `createdEmails`. -/
def createNewEmail (domain now : String) (chat : Int) (name : String) (s : Store) :
    Store × List Ev :=
  if validName name then
    let email := lowerStr name ++ "@" ++ domain
    let emailKey := "email:" ++ email
    let userKey := "user:" ++ toString chat
    match aGet email s.mails with
    | some _ => (s, [Ev.kvGet emailKey, Ev.sendMsg])
    | none =>
      let s1 := { s with mails := aSet email { inbox := [], owner := chat } s.mails }
      let u :=
        match aGet (toString chat) s1.users with
        | some u => u
        | none => { createdEmails := [], lastActive := some now }
      let u' := { u with createdEmails := u.createdEmails ++ [email] }
      ({ s1 with users := aSet (toString chat) u' s1.users },
        [Ev.kvGet emailKey, Ev.kvPut emailKey, Ev.kvGet userKey, Ev.kvPut userKey, Ev.sendMsg])
  else (s, [Ev.sendMsg])

/-- `deleteEmailAsAdmin` (`worker.js` lines 726-737, identical at 346-357
and 1376-1392): filter the address out of the *target* user's list, delete
the mailbox record, edit a notice. -/
def deleteEmailAsAdmin (emailToDelete targetUserId : String) (s : Store) : Store × List Ev :=
  let userKey := "user:" ++ targetUserId
  let emailKey := "email:" ++ emailToDelete
  match aGet targetUserId s.users with
  | some u =>
    ({ users := aSet targetUserId
        { u with createdEmails := u.createdEmails.filter (fun e => decide (e ≠ emailToDelete)) }
        s.users,
       mails := aDel emailToDelete s.mails },
      [Ev.kvGet userKey, Ev.kvPut userKey, Ev.kvDel emailKey, Ev.editMsg])
  | none =>
    ({ s with mails := aDel emailToDelete s.mails },
      [Ev.kvGet userKey, Ev.kvDel emailKey, Ev.editMsg])

/-- `listInactiveUsers` (`worker.js` lines 739-757): list the user keys,
read each record, edit the report. -/
def listInactiveUsersEvs (s : Store) : Store × List Ev :=
  (s, [Ev.kvList "user:"] ++ s.users.map (fun p => Ev.kvGet ("user:" ++ p.1)) ++ [Ev.editMsg])

/-- The admin-only action names of the actions-table router
(`worker.js` lines 536-543). -/
def adminActionsV2 : List String :=
  ["admin_panel", "admin_stats", "admin_list_users", "admin_view_user",
   "admin_delete_user_email_confirm", "admin_delete_user_email_execute",
   "admin_inactive_users"]

/-- The `actions` dispatch table of the second `worker.js` variant
(lines 515-548).  Every admin-only entry is guarded by `isAdmin && ...`:
for a non-admin the guard short-circuits and the entry does nothing. -/
def dispatchV2 (domain now : String) (isAdm : Bool) (chat : Int) (action : String)
    (params : List String) (s : Store) : Store × List Ev :=
  match action with
  | "panel_my_emails" => listUserEmails chat s
  | "panel_create" => (s, [Ev.sendMsg])
  | "panel_random" => (s, [Ev.sendMsg])
  | "view_inbox" => showInboxListEvs (params.getD 0 "") s
  | "view_email" => viewSingleEmail (params.getD 0 "") ((params.getD 1 "").toNat?) s
  | "mark_unread" => markEmailUnread (params.getD 0 "") ((params.getD 1 "").toNat?) s
  | "delete_single_confirm" => (s, [Ev.editMsg])
  | "delete_single_execute" =>
    let r := deleteSingleEmail (params.getD 0 "") ((params.getD 1 "").toNat?) s
    (r.1, r.2.1)
  | "delete_email" => (s, [Ev.editMsg])
  | "delete_confirm" => deleteEmail chat (params.getD 0 "") s
  | "delete_cancel" => (s, [Ev.editMsg])
  | "create_random" =>
    let r := createNewEmail domain now chat (params.getD 0 "") s
    (r.1, r.2 ++ [Ev.editMsg])
  | "generate_another" => (s, [Ev.editMsg])
  | "admin_panel" => if isAdm then (s, [Ev.editMsg]) else (s, [])
  | "admin_stats" =>
    if isAdm then (s, [Ev.kvList "user:", Ev.kvList "email:", Ev.editMsg]) else (s, [])
  | "admin_list_users" => if isAdm then (s, [Ev.kvList "user:", Ev.editMsg]) else (s, [])
  | "admin_view_user" =>
    if isAdm then (s, [Ev.kvGet ("user:" ++ params.getD 0 ""), Ev.editMsg]) else (s, [])
  | "admin_delete_user_email_confirm" => if isAdm then (s, [Ev.editMsg]) else (s, [])
  | "admin_delete_user_email_execute" =>
    if isAdm then deleteEmailAsAdmin (params.getD 0 "") (params.getD 1 "") s else (s, [])
  | "admin_inactive_users" => if isAdm then listInactiveUsersEvs s else (s, [])
  | _ => (s, [])

/-- `handleCallbackQuery` of the second `worker.js` variant (lines 505-549;
`part_001` lines 132-176 is the same dispatch written as an if/else-if
chain with the admin actions inside one `else if (isAdmin)` block, with the
same observable behaviour): split the token on `:`, answer the callback
query first, then track activity, then dispatch through the table. -/
def handleCallbackQueryV2 (admins : List String) (domain now : String) (chat : Int)
    (data : String) (s : Store) : Store × List Ev :=
  let parts := splitColonStr data
  let action := parts.headD ""
  let params := parts.tail
  let isAdm := admins.contains (toString chat)
  let (s1, evs1) := trackUserActivity now chat s
  let (s2, evs2) := dispatchV2 domain now isAdm chat action params s1
  (s2, Ev.ack "လုပ်ဆောင်နေပါသည်..." :: (evs1 ++ evs2))

/-- `viewInbox` of the first `worker.js` variant (lines 248-264): read the
mailbox; missing mailbox or empty inbox yields one message (edited when a
`messageId` was passed, sent otherwise); otherwise the whole inbox is sent
as a document. -/
def viewInboxV1 (email : String) (hasMsgId : Bool) (s : Store) : Store × List Ev :=
  let key := "email:" ++ email
  match aGet email s.mails with
  | none => (s, [Ev.kvGet key, Ev.sendMsg])
  | some mb =>
    if mb.inbox.length = 0 then
      (s, [Ev.kvGet key, if hasMsgId then Ev.editMsg else Ev.sendMsg])
    else (s, [Ev.kvGet key, Ev.sendDoc])

/-- The `switch (action)` dispatch of the first `worker.js` variant's
`handleCallbackQuery` (lines 226-244).  The Bool records whether the case
threw: `listAllUsers` (line 319) references the undefined name `end` and
throws a `ReferenceError` after its key listing.  No case checks
`isAdmin`. -/
def dispatchV1 (domain now : String) (chat : Int) (action : String)
    (params : List String) (s : Store) : Store × List Ev × Bool :=
  match action with
  | "view_inbox" => let r := viewInboxV1 (params.getD 0 "") false s; (r.1, r.2, false)
  | "refresh_inbox" => let r := viewInboxV1 (params.getD 0 "") true s; (r.1, r.2, false)
  | "delete_email" => (s, [Ev.editMsg], false)
  | "delete_confirm" => let r := deleteEmail chat (params.getD 0 "") s; (r.1, r.2, false)
  | "delete_cancel" => (s, [Ev.editMsg], false)
  | "create_random" =>
    let r := createNewEmail domain now chat (params.getD 0 "") s
    (r.1, r.2 ++ [Ev.editMsg], false)
  | "generate_another" => (s, [Ev.editMsg], false)
  | "panel_my_emails" => let r := listUserEmails chat s; (r.1, r.2, false)
  | "panel_create" => (s, [Ev.sendMsg], false)
  | "panel_random" => (s, [Ev.sendMsg], false)
  | "admin_stats" => (s, [Ev.kvList "user:", Ev.kvList "email:", Ev.editMsg], false)
  | "admin_list_users" => (s, [Ev.kvList "user:", Ev.jsError], true)
  | "admin_view_user" => (s, [Ev.kvGet ("user:" ++ params.getD 0 ""), Ev.editMsg], false)
  | "admin_delete_email" =>
    let r := deleteEmailAsAdmin (params.getD 0 "") (params.getD 1 "") s
    (r.1, r.2, false)
  | "admin_storage" => (s, [Ev.kvList "", Ev.editMsg], false)
  | "admin_inactive_users" => let r := listInactiveUsersEvs s; (r.1, r.2, false)
  | "admin_back" => (s, [Ev.editMsg], false)
  | _ => (s, [], false)

/-- `handleCallbackQuery` of the first `worker.js` variant (lines 220-246):
track activity, run the switch, and only *after* the switch answer the
callback query (line 245).  When a case throws, the acknowledgment never
runs and the outer catch (lines 20-35) sends the error text to the user. -/
def handleCallbackQueryV1 (domain now : String) (chat : Int) (data : String)
    (s : Store) : Store × List Ev :=
  let parts := splitColonStr data
  let action := parts.headD ""
  let params := parts.tail
  let (s1, evs1) := trackUserActivity now chat s
  let (s2, evs2, threw) := dispatchV1 domain now chat action params s1
  if threw then (s2, evs1 ++ evs2 ++ [Ev.sendMsg])
  else (s2, evs1 ++ evs2 ++ [Ev.ack ""])

/-!  ## The `part_002` v2.0 variant: guarded address creation  -/

/-- User record of the `part_002` v2.0 variant
(`getUserData`, line 542): `{ createdEmails, lastActive, state }`. -/
structure UserRec20 where
  createdEmails : List String
  lastActive : Option String
  state : Option String
  deriving DecidableEq, Repr

/-- Store of the v2.0 variant. -/
structure Store20 where
  users : List (String × UserRec20)
  mails : List (String × Mailbox)
  deriving DecidableEq, Repr

/-- `getUserData` (`part_002` lines 539-543): parse the record or default
`{ createdEmails: [], lastActive: null, state: null }`. -/
def getUserData20 (chat : Int) (s : Store20) : UserRec20 :=
  (aGet (toString chat) s.users).getD { createdEmails := [], lastActive := none, state := none }

/-- `updateUserData` (`part_002` lines 545-549): stamp `lastActive`, put. -/
def updateUserData20 (now : String) (chat : Int) (u : UserRec20) (s : Store20) : Store20 :=
  { s with users := aSet (toString chat) { u with lastActive := some now } s.users }

/-- `createNewEmail` of the `part_002` v2.0 variant (lines 645-668): like
the `worker.js` versions, but the push into `createdEmails` is guarded by
`if (!userData.createdEmails.includes(email))`. -/
def createNewEmailV20 (domain now : String) (chat : Int) (name : String) (s : Store20) :
    Store20 × List Ev :=
  if validName name then
    let email := lowerStr name ++ "@" ++ domain
    let emailKey := "email:" ++ email
    match aGet email s.mails with
    | some _ => (s, [Ev.kvGet emailKey, Ev.sendMsg])
    | none =>
      let s1 := { s with mails := aSet email { inbox := [], owner := chat } s.mails }
      let u := getUserData20 chat s1
      let u' :=
        if email ∈ u.createdEmails then u
        else { u with createdEmails := u.createdEmails ++ [email] }
      (updateUserData20 now chat u' s1,
        [Ev.kvGet emailKey, Ev.kvPut emailKey, Ev.kvGet ("user:" ++ toString chat),
         Ev.kvPut ("user:" ++ toString chat), Ev.sendMsg])
  else (s, [Ev.sendMsg])

/-- `deleteEmail` of the `part_002` v2.0 variant (lines 847-856). -/
def deleteEmailV20 (now : String) (chat : Int) (email : String) (s : Store20) :
    Store20 × List Ev :=
  let u := getUserData20 chat s
  let u' := { u with createdEmails := u.createdEmails.filter (fun e => decide (e ≠ email)) }
  let s1 := updateUserData20 now chat u' s
  ({ s1 with mails := aDel email s1.mails },
    [Ev.kvGet ("user:" ++ toString chat), Ev.kvPut ("user:" ++ toString chat),
     Ev.kvDel ("email:" ++ email), Ev.editMsg])

/-- A create or delete operation of the v2.0 variant, as dispatched by its
message/callback handlers. -/
inductive Op20 where
  | create (chat : Int) (name : String) (now : String)
  | del (chat : Int) (email : String) (now : String)
  deriving DecidableEq, Repr

/-- Run one v2.0 create/delete operation on the store. -/
def execOp20 (domain : String) (s : Store20) : Op20 → Store20
  | .create chat name now => (createNewEmailV20 domain now chat name s).1
  | .del chat email now => (deleteEmailV20 now chat email s).1

/-- Run a sequence of v2.0 create/delete operations. -/
def exec20 (domain : String) (ops : List Op20) (s : Store20) : Store20 :=
  ops.foldl (execOp20 domain) s

/-- "No user's `createdEmails` list mentions an address twice". -/
def nodupInv (s : Store20) : Prop :=
  ∀ k u, aGet k s.users = some u → u.createdEmails.Nodup

/-!  ## The `part_002` v7.1 conversational state machine  -/

/-- User record of the `part_002` v7.1 variant (`getUserData` defaults,
lines 130-137). -/
structure UserRec71 where
  createdAt : String
  lastActive : String
  createdEmails : List String
  state : Option String
  forwardEmail : Option String
  isBanned : Bool
  deriving DecidableEq, Repr

/-- The v7.1 user store (the claims against this variant only touch user
records; the mailbox side is unchanged from the other variants). -/
def Store71 : Type := List (String × UserRec71)

/-- `getUserData` (`part_002` lines 124-138): stored record or fresh
defaults. -/
def getUserData71 (now : String) (chat : Int) (s : Store71) : UserRec71 :=
  match aGet (toString chat) s with
  | some u => u
  | none =>
    { createdAt := now, lastActive := now, createdEmails := [], state := none,
      forwardEmail := none, isBanned := false }

/-- `updateUserData` (`part_002` lines 140-144): stamp `lastActive`, put. -/
def updateUserData71 (now : String) (chat : Int) (u : UserRec71) (s : Store71) : Store71 :=
  aSet (toString chat) { u with lastActive := now } s

/-- The state-tag table of `handleMessage` (`part_002` lines 168-175):
bound handler name and whether the case is wrapped in `if (isAdmin(...))`.
Handler bodies are omitted from the source ("implementation from v7.0"),
so the embedding records their invocation as a `.run` event. -/
def boundHandler71 : String → Option (String × Bool)
  | "awaiting_email_name" => some ("createNewEmail", false)
  | "awaiting_forward_email" => some ("setForwardEmail", false)
  | "awaiting_broadcast_message" => some ("confirmBroadcast", true)
  | "awaiting_user_id_search" => some ("showUserDetailsForAdmin", true)
  | "awaiting_welcome_message" => some ("saveWelcomeMessage", true)
  | _ => none

/-- The command switch of `handleMessage` (`part_002` lines 183-192),
reached only when no pending state consumed the text. -/
def cmdEvs71 (isAdm : Bool) (text : String) : List Ev :=
  if text.startsWith "/" then
    match lowerStr text with
    | "/start" => [Ev.cmd "showMainMenu"]
    | "/menu" => [Ev.cmd "showMainMenu"]
    | "/my_emails" => [Ev.cmd "listUserEmails"]
    | "/create_email" => [Ev.cmd "requestEmailName"]
    | "/admin_panel" => if isAdm then [Ev.cmd "showAdminPanel"] else []
    | "/setup_menu" => if isAdm then [Ev.cmd "setupCommands"] else []
    | _ => [Ev.sendMsg]
  else []

/-- `handleMessage` of the `part_002` v7.1 variant (lines 157-193): load the
user record; a banned user returns *before* `updateUserData`; otherwise
stamp `lastActive`, dispatch a pending state tag to its bound handler
(admin-only tags run their handler only for admins but still count as
handled), then clear `state` and persist; with no pending state, parse
commands.  Handler bodies are not in the source; their invocation is the
`.run` event and their mutations of the shared `userData` object are not
modelled. -/
def handleMessage71 (admins : List String) (now : String) (chat : Int) (text : String)
    (s : Store71) : Store71 × List Ev :=
  let userKey := "user:" ++ toString chat
  let u := getUserData71 now chat s
  if u.isBanned then (s, [Ev.kvGet userKey])
  else
    let s1 := updateUserData71 now chat u s
    let isAdm := admins.contains (toString chat)
    let evs0 := [Ev.kvGet userKey, Ev.kvPut userKey]
    let cmdPart : Store71 × List Ev := (s1, evs0 ++ cmdEvs71 isAdm text)
    match u.state with
    | some st =>
      match boundHandler71 st with
      | some hb =>
        let hEvs := if hb.2 && !isAdm then [] else [Ev.run hb.1]
        (aSet (toString chat) { u with state := none, lastActive := now } s1,
          evs0 ++ hEvs ++ [Ev.kvPut userKey])
      | none => cmdPart
    | none => cmdPart

/-- The callback if-chain of the v7.1 `handleCallbackQuery`
(`part_002` lines 213-262), recorded as dispatch events (handler bodies
are omitted from the source). -/
def actionEvs71 (action : String) : List Ev :=
  match action with
  | "main_menu" => [Ev.run "showMainMenu"]
  | "create_email" => [Ev.run "requestEmailName"]
  | "random_address" => [Ev.run "generateRandomAddress"]
  | "create_random" => [Ev.run "createNewEmail", Ev.editMsg]
  | "generate_another" => [Ev.run "generateRandomAddress"]
  | "my_emails" => [Ev.run "listUserEmails"]
  | "view_inbox" => [Ev.run "viewInbox"]
  | "view_email" => [Ev.run "showEmailViewOptions"]
  | "view_email_clean" => [Ev.run "viewSingleEmail"]
  | "view_email_raw" => [Ev.run "viewSingleEmail"]
  | "delete_email_prompt" => [Ev.run "confirmDeleteEmail"]
  | "delete_email_confirm" => [Ev.run "deleteEmail"]
  | "setup_forwarding" => [Ev.run "showForwardingSetup"]
  | "set_forward_email" => [Ev.run "requestForwardEmail"]
  | "remove_forward_email" => [Ev.run "removeForwardEmail"]
  | "admin_panel" => [Ev.run "showAdminPanel"]
  | "admin_user_management" => [Ev.run "showAdminUserManagementPanel"]
  | "admin_bot_management" => [Ev.run "showAdminBotManagementPanel"]
  | "admin_list_users" => [Ev.run "listAllUsers"]
  | "list_users_page" => [Ev.run "listAllUsers"]
  | "admin_search_user" => [Ev.run "requestUserIdSearch"]
  | "admin_view_user" => [Ev.run "showUserDetailsForAdmin"]
  | "admin_ban_user" => [Ev.run "banUser"]
  | "admin_unban_user" => [Ev.run "unbanUser"]
  | "admin_stats" => [Ev.run "showAdvancedStats"]
  | "admin_stats_refresh" => [Ev.run "showAdvancedStats"]
  | "admin_broadcast" => [Ev.run "requestBroadcastMessage"]
  | "broadcast_confirm" => [Ev.run "executeBroadcast"]
  | "broadcast_cancel" => [Ev.editMsg]
  | "admin_health_check" => [Ev.run "checkBotHealth"]
  | "admin_edit_welcome" => [Ev.run "requestWelcomeMessage"]
  | "admin_cleanup_prompt" => [Ev.run "confirmCleanup"]
  | "admin_cleanup_confirm" => [Ev.run "executeCleanup"]
  | _ => []

/-- `handleCallbackQuery` of the `part_002` v7.1 variant (lines 195-263):
load the user record; a banned user gets the callback answered with
"You are banned." and nothing else (the return is *before*
`updateUserData`); otherwise stamp `lastActive`, answer the callback, and
dispatch the parsed action. -/
def handleCallbackQuery71 (now : String) (chat : Int) (data : String) (s : Store71) :
    Store71 × List Ev :=
  let userKey := "user:" ++ toString chat
  let u := getUserData71 now chat s
  if u.isBanned then (s, [Ev.kvGet userKey, Ev.ack "You are banned."])
  else
    let s1 := updateUserData71 now chat u s
    let action := (splitColonStr data).headD ""
    (s1, [Ev.kvGet userKey, Ev.kvPut userKey, Ev.ack ""] ++ actionEvs71 action)

/-!  ## Callback-token percent-encoding (`part_002` lines 16-18, 208-210)

`const encode = (str) => encodeURIComponent(str)` and
`const decode = (str) => decodeURIComponent(str)` delegate to the
ECMAScript builtins, modelled here over strings as lists of Unicode code
points (ECMA-262 `Encode`/`Decode` with the `encodeURIComponent`
unreserved set; `encodeURIComponent` throws on lone surrogates, which the
round-trip theorem excludes by hypothesis). -/

/-- A Unicode scalar value (what a well-formed JS string's code points
are). -/
def isScalarCp (c : Nat) : Prop :=
  c < 1114112 ∧ ¬(55296 ≤ c ∧ c ≤ 57343)

instance (c : Nat) : Decidable (isScalarCp c) := by
  unfold isScalarCp; infer_instance

/-- The code points `encodeURIComponent` leaves unescaped:
`A-Z a-z 0-9 - _ . ! ~ * ' ( )`. -/
def uriUnreserved (c : Nat) : Bool :=
  decide ((65 ≤ c ∧ c ≤ 90) ∨ (97 ≤ c ∧ c ≤ 122) ∨ (48 ≤ c ∧ c ≤ 57)) ||
    c == 45 || c == 95 || c == 46 || c == 33 || c == 126 || c == 42 ||
    c == 39 || c == 40 || c == 41

/-- Upper-case hex digit of a nibble. -/
def hexDigitCp (n : Nat) : Nat :=
  if n < 10 then 48 + n else 55 + n

/-- `%HH` for one byte. -/
def pctByte (b : Nat) : List Nat :=
  [37, hexDigitCp (b / 16), hexDigitCp (b % 16)]

/-- UTF-8 bytes of a code point. -/
def utf8Bytes (c : Nat) : List Nat :=
  if c < 128 then [c]
  else if c < 2048 then [192 + c / 64, 128 + c % 64]
  else if c < 65536 then [224 + c / 4096, 128 + c / 64 % 64, 128 + c % 64]
  else [240 + c / 262144, 128 + c / 4096 % 64, 128 + c / 64 % 64, 128 + c % 64]

/-- `encodeURIComponent` on one code point. -/
def encodeCp (c : Nat) : List Nat :=
  if uriUnreserved c then [c] else List.flatten ((utf8Bytes c).map pctByte)

/-- `encode` (`part_002` line 16): `encodeURIComponent` over the string. -/
def encode (s : List Nat) : List Nat :=
  List.flatten (s.map encodeCp)

/-- Value of a hex digit (either case), `none` on a non-hex character. -/
def hexVal (c : Nat) : Option Nat :=
  if 48 ≤ c ∧ c ≤ 57 then some (c - 48)
  else if 65 ≤ c ∧ c ≤ 70 then some (c - 55)
  else if 97 ≤ c ∧ c ≤ 102 then some (c - 87)
  else none

/-- Byte value of two hex digits. -/
def byteVal (h1 h2 : Nat) : Option Nat :=
  match hexVal h1, hexVal h2 with
  | some a, some b => some (16 * a + b)
  | _, _ => none

/-- One `%HH` group: its byte value and the rest of the input. -/
def pctGroup? : List Nat → Option (Nat × List Nat)
  | 37 :: h1 :: h2 :: r => (byteVal h1 h2).map (fun b => (b, r))
  | _ => none

/-- Read `n` UTF-8 continuation bytes (each a `%HH` group with value in
`[0x80, 0xC0)`), accumulating their 6-bit payloads onto `acc`. -/
def contBytes : Nat → Nat → List Nat → Option (Nat × List Nat)
  | 0, acc, r => some (acc, r)
  | n + 1, acc, r =>
    match pctGroup? r with
    | some br =>
      if 128 ≤ br.1 ∧ br.1 < 192 then contBytes n (acc * 64 + (br.1 - 128)) br.2
      else none
    | none => none

/-- Decode one code point from the front of the input: a `%HH` group
starts a UTF-8 sequence (whose length the lead byte determines); any other
character passes through. -/
def decodeOne : List Nat → Option (Nat × List Nat)
  | [] => none
  | c :: rest =>
    if c = 37 then
      match pctGroup? (c :: rest) with
      | none => none
      | some br =>
        if br.1 < 128 then some (br.1, br.2)
        else if br.1 < 192 then none
        else if br.1 < 224 then contBytes 1 (br.1 - 192) br.2
        else if br.1 < 240 then contBytes 2 (br.1 - 224) br.2
        else if br.1 < 248 then contBytes 3 (br.1 - 240) br.2
        else none
    else some (c, rest)

/-- Fuelled decoding loop (`decodeOne` consumes at least one character per
step, so `fuel = length` always suffices). -/
def decodeAux : Nat → List Nat → Option (List Nat)
  | _, [] => some []
  | 0, _ :: _ => none
  | fuel + 1, c :: rest =>
    match decodeOne (c :: rest) with
    | some cr => (decodeAux fuel cr.2).map (fun t => cr.1 :: t)
    | none => none

/-- `decode` (`part_002` line 17): `decodeURIComponent`.  `%HH` groups are
reassembled into UTF-8 sequences (a malformed escape or a bad continuation
byte makes the builtin throw `URIError`, modelled as `none`); every other
character passes through. -/
def decode (s : List Nat) : Option (List Nat) :=
  decodeAux s.length s

/-- JS `"...".split(":")` over code-point lists (an empty string yields
`[[]]`, i.e. `[""]`). -/
def splitColon : List Nat → List (List Nat)
  | [] => [[]]
  | c :: rest =>
    if c = 58 then [] :: splitColon rest
    else
      match splitColon rest with
      | [] => [[c]]
      | h :: t => (c :: h) :: t

/-- The producer side `action:arg1:arg2:...`: the parts joined by `:`. -/
def joinColon : List (List Nat) → List Nat
  | [] => []
  | [x] => x
  | x :: xs => x ++ 58 :: joinColon xs

/-- The router's parse (`part_002` lines 209-210):
`const [action, ...params] = data.split(":")` followed by
`params.map(p => decode(p))`.  The action itself is not decoded. -/
def parse71 (data : List Nat) : List Nat × List (Option (List Nat)) :=
  let parts := splitColon data
  (parts.headD [], parts.tail.map decode)

/-!  ## Claim theorems  -/

/-- A sample message for concrete witnesses. -/
def wMsg : Msg :=
  { sender := "alice@example.com", subject := "hi", body := "hello", receivedAt := "2024",
    read := false }

/-- Concrete store for the C1 witness: one mailbox with 12 messages. -/
def c1store : Store :=
  { users := [], mails := [("a@d", { inbox := List.replicate 12 wMsg, owner := 7 })] }

/-- Concrete store for the C7 witness: three messages, delete index 1. -/
def c7store : Store :=
  { users := [],
    mails := [("a@d",
      { inbox := [{ wMsg with subject := "m0" }, { wMsg with subject := "m1" },
          { wMsg with subject := "m2" }], owner := 7 })] }

/-- The C7 mailbox. -/
def c7mb : Mailbox :=
  { inbox := [{ wMsg with subject := "m0" }, { wMsg with subject := "m1" },
      { wMsg with subject := "m2" }], owner := 7 }

/-- Concrete store for the C2 counterexample: one mailbox holding m0, m1. -/
def c2store : Store :=
  { users := [],
    mails := [("a@d",
      { inbox := [{ wMsg with subject := "m0" }, { wMsg with subject := "m1" }],
        owner := 7 })] }

/-- Concrete store for the C10 witness: message 0 already read. -/
def c10store : Store :=
  { users := [],
    mails := [("a@d", { inbox := [{ wMsg with read := true }], owner := 7 })] }

/-- Concrete store for the C3 counterexample: user 7 owns mailbox `x@d`;
the admin allow-list is `["1"]`, and chat 99 is not on it. -/
def c3store : Store :=
  { users := [("7", { createdEmails := ["x@d"], lastActive := some "t0" })],
    mails := [("x@d", { inbox := [wMsg], owner := 7 })] }

/-- Holds of an effect: is it a callback acknowledgment? -/
def isAck : Ev → Bool
  | .ack _ => true
  | _ => false

/-- Concrete v7.1 store for C4: chat 9 is banned, `lastActive = "t0"`. -/
def c4store : Store71 :=
  [("9", { createdAt := "t0", lastActive := "t0", createdEmails := [], state := none,
           forwardEmail := none, isBanned := true })]

/-- Concrete v7.1 store for C6: chat 5 has pending state
`awaiting_email_name`. -/
def c6store : Store71 :=
  [("5", { createdAt := "t0", lastActive := "t0", createdEmails := [],
           state := some "awaiting_email_name", forwardEmail := none,
           isBanned := false })]

/-- C9 counterexample, step 1: chat 2 creates `x@d`
(button "create this address" / reply flow). -/
def c9s1 : Store := (createNewEmail "d" "t1" 2 "x" { users := [], mails := [] }).1

/-- C9 counterexample, step 2: chat 2 confirms deletion of `x@d`
(`delete_confirm:x@d`). -/
def c9s2 : Store := (deleteEmail 2 "x@d" c9s1).1

/-- C9 counterexample, step 3: chat 1 creates the now-free `x@d`. -/
def c9s3 : Store := (createNewEmail "d" "t2" 1 "x" c9s2).1

/-- C9 counterexample, step 4: chat 2 presses its old, stale
`delete_confirm:x@d` button again — `deleteEmail` deletes chat 1's
mailbox record without an ownership check, leaving `x@d` dangling in
chat 1's `createdEmails`. -/
def c9s4 : Store := (deleteEmail 2 "x@d" c9s3).1

/-- C9 counterexample, step 5: chat 1 creates `x@d` again — the mailbox
key is free, and `createNewEmail` pushes unconditionally. -/
def c9s5 : Store := (createNewEmail "d" "t3" 1 "x" c9s4).1

/-- `5 * ((n + 4) / 5) ≤ n + 4`, `n ≤ 5 * ((n + 4) / 5)`. -/
theorem ceilDiv5_bounds (n : Nat) : 5 * ((n + 4) / 5) ≤ n + 4 ∧ n ≤ 5 * ((n + 4) / 5) := by
  constructor
  · exact Nat.mul_div_le (n + 4) 5
  · have h1 := Nat.div_add_mod (n + 4) 5
    have h2 : (n + 4) % 5 < 5 := Nat.mod_lt _ (by norm_num)
    omega

/-- C1.  For every mailbox with `n ≥ 0` stored messages and every requested
page number `p` (any integer), `showInboxList` renders the page clamped to
`[1, max(1, ceil(n/5))]` with page size 5, and its rows are exactly the
messages at global indices `(page-1)*5 .. min(n, page*5)-1` (paired with
those global indices); when `n = 0` the empty-state view is rendered
regardless of `p`. -/
theorem c1_showInboxList_pagination (s : Store) (email : String) (page : Int)
    (mb : Mailbox) (hmb : aGet email s.mails = some mb) :
    (mb.inbox.length = 0 → showInboxListView s email page = .empty email) ∧
    (0 < mb.inbox.length →
      1 ≤ (max 1 (min page (((mb.inbox.length + 4) / 5 : Nat) : Int))).toNat ∧
      (max 1 (min page (((mb.inbox.length + 4) / 5 : Nat) : Int))).toNat ≤
        max 1 ((mb.inbox.length + 4) / 5) ∧
      ∃ rows,
        showInboxListView s email page =
          .page email ((max 1 (min page (((mb.inbox.length + 4) / 5 : Nat) : Int))).toNat)
            ((mb.inbox.length + 4) / 5) rows
            (decide (1 < (max 1 (min page (((mb.inbox.length + 4) / 5 : Nat) : Int))).toNat))
            (decide ((max 1 (min page (((mb.inbox.length + 4) / 5 : Nat) : Int))).toNat <
              (mb.inbox.length + 4) / 5)) ∧
        rows.length =
          min mb.inbox.length
              ((max 1 (min page (((mb.inbox.length + 4) / 5 : Nat) : Int))).toNat * 5) -
            ((max 1 (min page (((mb.inbox.length + 4) / 5 : Nat) : Int))).toNat - 1) * 5 ∧
        ∀ k, k < 5 →
          rows[k]? =
            (mb.inbox[((max 1 (min page (((mb.inbox.length + 4) / 5 : Nat) : Int))).toNat - 1)
                * 5 + k]?).map
              (fun m =>
                (((max 1 (min page (((mb.inbox.length + 4) / 5 : Nat) : Int))).toNat - 1) * 5
                  + k, m))) := by
  constructor
  · intro h0
    unfold showInboxListView
    rw [hmb]
    simp [h0]
  · intro hn
    have hne : ¬ mb.inbox.length = 0 := by omega
    set n := mb.inbox.length with hdefn
    set tp : Nat := (n + 4) / 5 with hdeftp
    set p : Nat := (max 1 (min page (tp : Int))).toNat with hdefp
    have htp1 : 1 ≤ tp := by
      have := (ceilDiv5_bounds n).2
      omega
    have hp1 : 1 ≤ p := by
      have h1 : (1 : Int) ≤ max 1 (min page (tp : Int)) := le_max_left _ _
      exact Int.toNat_le_toNat h1
    have hptp : p ≤ tp := by
      have h2 : max 1 (min page (tp : Int)) ≤ (tp : Int) := by
        apply max_le
        · exact_mod_cast htp1
        · exact min_le_right _ _
      exact Int.toNat_le_toNat h2
    have hstart : (p - 1) * 5 < n := by
      have h5 : 5 * tp ≤ n + 4 := (ceilDiv5_bounds n).1
      have : (p - 1) * 5 ≤ (tp - 1) * 5 := by
        apply Nat.mul_le_mul_right
        omega
      omega
    refine ⟨hp1, le_trans hptp (le_max_right _ _), ?_⟩
    refine ⟨((mb.inbox.drop ((p - 1) * 5)).take 5).enum.map
      (fun im => ((p - 1) * 5 + im.1, im.2)), ?_, ?_, ?_⟩
    · unfold showInboxListView
      rw [hmb]
      simp only [if_neg hne]
    · simp only [List.length_map, List.enum_length, List.length_take, List.length_drop]
      omega
    · intro k hk
      simp only [List.getElem?_map, List.getElem?_enum,
        List.getElem?_take_of_lt hk, List.getElem?_drop]
      cases mb.inbox[(p - 1) * 5 + k]? <;> rfl

/-- C1 witness: the theorem applied at a 12-message mailbox with the
out-of-range requested page 99 (clamped to page 3 of 3). -/
theorem c1_showInboxList_pagination_witness :
    (aGet "a@d" c1store.mails = some { inbox := List.replicate 12 wMsg, owner := 7 }) ∧
    (((List.replicate 12 wMsg : List Msg).length = 0 →
        showInboxListView c1store "a@d" 99 = .empty "a@d") ∧
      (0 < (List.replicate 12 wMsg : List Msg).length →
        1 ≤ (max 1 (min 99 ((((List.replicate 12 wMsg : List Msg).length + 4) / 5 : Nat) :
            Int))).toNat ∧
        (max 1 (min 99 ((((List.replicate 12 wMsg : List Msg).length + 4) / 5 : Nat) :
            Int))).toNat ≤
          max 1 (((List.replicate 12 wMsg : List Msg).length + 4) / 5) ∧
        ∃ rows,
          showInboxListView c1store "a@d" 99 =
            .page "a@d"
              ((max 1 (min 99 ((((List.replicate 12 wMsg : List Msg).length + 4) / 5 : Nat) :
                Int))).toNat)
              (((List.replicate 12 wMsg : List Msg).length + 4) / 5) rows
              (decide (1 < (max 1 (min 99 ((((List.replicate 12 wMsg : List Msg).length + 4)
                / 5 : Nat) : Int))).toNat))
              (decide ((max 1 (min 99 ((((List.replicate 12 wMsg : List Msg).length + 4) / 5 :
                Nat) : Int))).toNat <
                ((List.replicate 12 wMsg : List Msg).length + 4) / 5)) ∧
          rows.length =
            min (List.replicate 12 wMsg : List Msg).length
                ((max 1 (min 99 ((((List.replicate 12 wMsg : List Msg).length + 4) / 5 : Nat) :
                  Int))).toNat * 5) -
              ((max 1 (min 99 ((((List.replicate 12 wMsg : List Msg).length + 4) / 5 : Nat) :
                Int))).toNat - 1) * 5 ∧
          ∀ k, k < 5 →
            rows[k]? =
              ((List.replicate 12 wMsg : List Msg)[((max 1 (min 99 ((((List.replicate 12 wMsg :
                  List Msg).length + 4) / 5 : Nat) : Int))).toNat - 1) * 5 + k]?).map
                (fun m =>
                  (((max 1 (min 99 ((((List.replicate 12 wMsg : List Msg).length + 4) / 5 :
                    Nat) : Int))).toNat - 1) * 5 + k, m)))) :=
  ⟨by decide, c1_showInboxList_pagination c1store "a@d" 99
    { inbox := List.replicate 12 wMsg, owner := 7 } (by decide)⟩

/-- `aGet` after `aSet`. -/
theorem aGet_aSet {β : Type} (k k' : String) (v : β) (l : List (String × β)) :
    aGet k' (aSet k v l) = if k = k' then some v else aGet k' l := by
  induction l with
  | nil => simp [aSet, aGet]
  | cons hd tl ih =>
    obtain ⟨a, b⟩ := hd
    by_cases hak : a = k
    · subst hak
      simp only [aSet, if_pos rfl, aGet]
      split_ifs <;> simp_all [aGet]
    · simp only [aSet, if_neg hak, aGet, ih]
      split_ifs <;> simp_all

/-- Writing back the value that is already stored is a no-op. -/
theorem aSet_of_aGet {β : Type} (k : String) (v : β) (l : List (String × β))
    (h : aGet k l = some v) : aSet k v l = l := by
  induction l with
  | nil => simp [aGet] at h
  | cons hd tl ih =>
    obtain ⟨a, b⟩ := hd
    by_cases hak : a = k
    · subst hak
      simp only [aGet, if_true, reduceIte, Option.some.injEq] at h
      simp [aSet, h]
    · simp only [aGet, if_neg hak] at h
      simp [aSet, hak, ih h]

/-- Deleting an already-deleted key is a no-op. -/
theorem aDel_aDel {β : Type} (k : String) (l : List (String × β)) :
    aDel k (aDel k l) = aDel k l := by
  simp [aDel, List.filter_filter]

/-- Filtering a list a second time with the same predicate is a no-op. -/
theorem filter_idem {α : Type} (p : α → Bool) (l : List α) :
    (l.filter p).filter p = l.filter p := by
  simp [List.filter_filter]

/-- C7.  Deleting the message at global index `i` (`0 ≤ i < n`) from a
mailbox holding `n` messages stores a mailbox of exactly `n-1` messages in
which every message formerly at index `j > i` now sits at `j-1` and every
message below `i` is unchanged, and the rendered list view is recomputed
by `showInboxList` from the updated store (new count, fresh pagination). -/
theorem c7_deleteSingleEmail_reindex (s : Store) (email : String) (i : Nat) (mb : Mailbox)
    (hmb : aGet email s.mails = some mb) (hi : i < mb.inbox.length) :
    aGet email (deleteSingleEmail email (some i) s).1.mails =
      some { mb with inbox := mb.inbox.eraseIdx i } ∧
    (mb.inbox.eraseIdx i).length = mb.inbox.length - 1 ∧
    (∀ j, j < i → (mb.inbox.eraseIdx i)[j]? = mb.inbox[j]?) ∧
    (∀ j, i < j → j < mb.inbox.length → (mb.inbox.eraseIdx i)[j - 1]? = mb.inbox[j]?) ∧
    (deleteSingleEmail email (some i) s).2.2 =
      showInboxListView (deleteSingleEmail email (some i) s).1 email 1 := by
  have hget : listGet? mb.inbox (some i) = some mb.inbox[i] := by
    simp [listGet?, List.getElem?_eq_getElem hi]
  refine ⟨?_, List.length_eraseIdx_of_lt hi, ?_, ?_, ?_⟩
  · unfold deleteSingleEmail
    rw [hmb]
    simp only [hget]
    simp [aGet_aSet, listErase]
  · intro j hj
    exact List.getElem?_eraseIdx_of_lt mb.inbox i j hj
  · intro j hij hj
    have h1 : i ≤ j - 1 := by omega
    have := List.getElem?_eraseIdx_of_ge mb.inbox i (j - 1) h1
    rw [this]
    congr 1
    omega
  · unfold deleteSingleEmail
    rw [hmb]

/-- C7 witness: the theorem applied at a 3-message mailbox, deleting global
index 1. -/
theorem c7_deleteSingleEmail_reindex_witness :
    (aGet "a@d" c7store.mails = some c7mb) ∧ 1 < c7mb.inbox.length ∧
    (aGet "a@d" (deleteSingleEmail "a@d" (some 1) c7store).1.mails =
      some { c7mb with inbox := c7mb.inbox.eraseIdx 1 } ∧
    (c7mb.inbox.eraseIdx 1).length = c7mb.inbox.length - 1 ∧
    (∀ j, j < 1 → (c7mb.inbox.eraseIdx 1)[j]? = c7mb.inbox[j]?) ∧
    (∀ j, 1 < j → j < c7mb.inbox.length → (c7mb.inbox.eraseIdx 1)[j - 1]? = c7mb.inbox[j]?) ∧
    (deleteSingleEmail "a@d" (some 1) c7store).2.2 =
      showInboxListView (deleteSingleEmail "a@d" (some 1) c7store).1 "a@d" 1) :=
  ⟨by decide, by decide,
    c7_deleteSingleEmail_reindex c7store "a@d" 1 c7mb (by decide) (by decide)⟩

/-- C2 counterexample.  Pressing `delete_single_execute:a@d:0` once removes
m0; pressing the same already-used confirm button a second time is *not* a
no-op: index 0 still resolves (to m1, which shifted down), so the second
invocation deletes m1 as well, altering a record the claim says must stay
untouched. -/
theorem c2_second_delete_not_noop :
    aGet "a@d" (deleteSingleEmail "a@d" (some 0) c2store).1.mails =
      some { inbox := [{ wMsg with subject := "m1" }], owner := 7 } ∧
    aGet "a@d" (deleteSingleEmail "a@d" (some 0)
        (deleteSingleEmail "a@d" (some 0) c2store).1).1.mails =
      some { inbox := [], owner := 7 } := by
  constructor <;> rfl

/-- C2 (amended).  `delete_confirm` on an already-deleted mailbox is an
idempotent no-op (running `deleteEmail` a second time leaves the store
exactly as after the first run, without error); `delete_single_execute` a
second time with the same address and index is a no-op exactly when the
index no longer resolves in the shrunken inbox — in particular when the
deleted message was the last one (`i = n-1`); when the index still
resolves, the second press removes the message that shifted into it (the
counterexample). -/
theorem c2_delete_idempotent_amended :
    (∀ (chat : Int) (email : String) (s : Store),
      (deleteEmail chat email (deleteEmail chat email s).1).1 =
        (deleteEmail chat email s).1) ∧
    (∀ (email : String) (s : Store) (mb : Mailbox) (i : Nat),
      aGet email s.mails = some mb → mb.inbox.length = i + 1 →
      (deleteSingleEmail email (some i) (deleteSingleEmail email (some i) s).1).1 =
        (deleteSingleEmail email (some i) s).1) := by
  constructor
  · intro chat email s
    unfold deleteEmail
    cases h : aGet (toString chat) s.users with
    | none =>
      simp only [h]
      simp only [aDel_aDel]
    | some u =>
      simp only [h]
      have h2 : aGet (toString chat)
          (aSet (toString chat)
            { u with createdEmails := u.createdEmails.filter (fun e => decide (e ≠ email)) }
            s.users) =
          some { u with
            createdEmails := u.createdEmails.filter (fun e => decide (e ≠ email)) } := by
        rw [aGet_aSet]
        simp
      simp only [h2, filter_idem, aDel_aDel]
      have h3 := aSet_of_aGet _ _ _ h2
      rw [h3]
  · intro email s mb i hmb hlen
    have hi : i < mb.inbox.length := by omega
    have hget : listGet? mb.inbox (some i) = some mb.inbox[i] := by
      simp [listGet?, List.getElem?_eq_getElem hi]
    have hs1 : (deleteSingleEmail email (some i) s).1 =
        { s with
          mails := aSet email { mb with inbox := mb.inbox.eraseIdx i } s.mails } := by
      unfold deleteSingleEmail
      rw [hmb]
      simp only [hget]
      simp [listErase]
    rw [hs1]
    unfold deleteSingleEmail
    have hmb2 : aGet email (aSet email { mb with inbox := mb.inbox.eraseIdx i } s.mails) =
        some { mb with inbox := mb.inbox.eraseIdx i } := by
      rw [aGet_aSet]; simp
    rw [hmb2]
    have hlen2 : (mb.inbox.eraseIdx i).length = i := by
      rw [List.length_eraseIdx_of_lt hi]; omega
    have hle : (mb.inbox.eraseIdx i).length ≤ i := by omega
    have hnone : listGet? (mb.inbox.eraseIdx i) (some i) = none := by
      simp [listGet?, List.getElem?_eq_none hle]
    simp only [hnone]

/-- C2 witness: both amended statements at concrete inputs — deleting
mailbox `a@d` of chat 7 twice, and double-deleting the last message
(index 1 of a 2-message inbox). -/
theorem c2_delete_idempotent_amended_witness :
    ((deleteEmail 7 "a@d" (deleteEmail 7 "a@d" c2store).1).1 =
      (deleteEmail 7 "a@d" c2store).1) ∧
    (aGet "a@d" c2store.mails =
      some { inbox := [{ wMsg with subject := "m0" }, { wMsg with subject := "m1" }],
             owner := 7 } ∧
    ({ inbox := [{ wMsg with subject := "m0" }, { wMsg with subject := "m1" }],
       owner := 7 } : Mailbox).inbox.length = 1 + 1 ∧
    (deleteSingleEmail "a@d" (some 1) (deleteSingleEmail "a@d" (some 1) c2store).1).1 =
      (deleteSingleEmail "a@d" (some 1) c2store).1) :=
  ⟨c2_delete_idempotent_amended.1 7 "a@d" c2store,
    by decide, by decide,
    c2_delete_idempotent_amended.2 "a@d" c2store
      { inbox := [{ wMsg with subject := "m0" }, { wMsg with subject := "m1" }], owner := 7 }
      1 (by decide) (by decide)⟩

/-- C10.  Viewing a single message whose `read` flag is already `true`
performs no storage write: the store is returned unchanged and the only
effects are the mailbox read and the render; on the first view of an
unread message, exactly one write happens and it sets that message's
`read` flag (nothing else changes). -/
theorem c10_viewSingleEmail_frame (s : Store) (email : String) (i : Nat) (mb : Mailbox)
    (m : Msg) (hmb : aGet email s.mails = some mb) (hm : mb.inbox[i]? = some m) :
    (m.read = true →
      viewSingleEmail email (some i) s =
        (s, [Ev.kvGet ("email:" ++ email), Ev.editMsg])) ∧
    (m.read = false →
      viewSingleEmail email (some i) s =
        ({ s with
            mails := aSet email { mb with inbox := mb.inbox.set i { m with read := true } }
              s.mails },
          [Ev.kvGet ("email:" ++ email), Ev.kvPut ("email:" ++ email), Ev.editMsg])) := by
  have hget : listGet? mb.inbox (some i) = some m := by simp [listGet?, hm]
  constructor
  · intro hr
    unfold viewSingleEmail
    rw [hmb]
    simp only [hget, hr]
    rfl
  · intro hr
    unfold viewSingleEmail
    rw [hmb]
    simp only [hget, hr]
    rfl

/-- C10 witness: the theorem applied to an already-read message (the
second conjunct's antecedent is false there; the first fires and shows the
store untouched). -/
theorem c10_viewSingleEmail_frame_witness :
    (aGet "a@d" c10store.mails =
      some { inbox := [{ wMsg with read := true }], owner := 7 }) ∧
    (({ inbox := [{ wMsg with read := true }], owner := 7 } : Mailbox).inbox[0]? =
      some { wMsg with read := true }) ∧
    ((({ wMsg with read := true } : Msg).read = true →
      viewSingleEmail "a@d" (some 0) c10store =
        (c10store, [Ev.kvGet "email:a@d", Ev.editMsg])) ∧
    (({ wMsg with read := true } : Msg).read = false →
      viewSingleEmail "a@d" (some 0) c10store =
        ({ c10store with
            mails := aSet "a@d"
              { ({ inbox := [{ wMsg with read := true }], owner := 7 } : Mailbox) with
                inbox := ([{ wMsg with read := true }] : List Msg).set 0
                  { ({ wMsg with read := true } : Msg) with read := true } } c10store.mails },
          [Ev.kvGet "email:a@d", Ev.kvPut "email:a@d", Ev.editMsg]))) :=
  ⟨by decide, by decide,
    c10_viewSingleEmail_frame c10store "a@d" 0
      { inbox := [{ wMsg with read := true }], owner := 7 }
      { wMsg with read := true } (by decide) (by decide)⟩

/-- C3 counterexample.  In the first `worker.js` variant's callback router
(lines 220-246) the admin actions are dispatched with no `isAdmin` check:
the non-admin chat 99 sending the callback token
`admin_delete_email:x@d:7` runs `deleteEmailAsAdmin`, which deletes the
mailbox record `x@d` and strips it from user 7's `createdEmails` — stored
records are read and mutated, so the dispatch is not a no-op. -/
theorem c3_nonadmin_admin_action_mutates :
    aGet "x@d" (handleCallbackQueryV1 "d" "t1" 99 "admin_delete_email:x@d:7" c3store).1.mails
      = none ∧
    aGet "7" (handleCallbackQueryV1 "d" "t1" 99 "admin_delete_email:x@d:7" c3store).1.users
      = some { createdEmails := [], lastActive := some "t0" } ∧
    aGet "x@d" c3store.mails = some { inbox := [wMsg], owner := 7 } := by
  refine ⟨?_, ?_, ?_⟩ <;> rfl

/-- C3 (amended).  In the actions-table router (`worker.js` lines 505-549;
`part_001` lines 132-176 behaves identically), for a chat not on the admin
allow-list every admin-only action is a no-op: the result is exactly the
acknowledgment plus the activity tracking that every callback performs —
no record is read into an admin view, no record is mutated by the action,
and no error is surfaced. -/
theorem c3_nonadmin_admin_action_noop (admins : List String) (domain now : String)
    (chat : Int) (data : String) (s : Store)
    (hadm : admins.contains (toString chat) = false)
    (hact : (splitColonStr data).headD "" ∈ adminActionsV2) :
    handleCallbackQueryV2 admins domain now chat data s =
      ((trackUserActivity now chat s).1,
        Ev.ack "လုပ်ဆောင်နေပါသည်..." :: (trackUserActivity now chat s).2) := by
  unfold handleCallbackQueryV2
  simp only [hadm]
  have hdisp : ∀ t : Store, dispatchV2 domain now false chat ((splitColonStr data).headD "")
      (splitColonStr data).tail t = (t, []) := by
    intro t
    simp only [adminActionsV2, List.mem_cons, List.not_mem_nil, or_false] at hact
    rcases hact with h | h | h | h | h | h | h <;> rw [h] <;> rfl
  simp only [hdisp]
  simp

/-- C3 witness: the amended theorem applied to non-admin chat 99 invoking
`admin_delete_user_email_execute` in the actions-table router. -/
theorem c3_nonadmin_admin_action_noop_witness :
    (["1"] : List String).contains (toString (99 : Int)) = false ∧
    ((splitColonStr "admin_delete_user_email_execute:x@d:7").headD "" ∈ adminActionsV2) ∧
    handleCallbackQueryV2 ["1"] "d" "t1" 99 "admin_delete_user_email_execute:x@d:7" c3store =
      ((trackUserActivity "t1" 99 c3store).1,
        Ev.ack "လုပ်ဆောင်နေပါသည်..." :: (trackUserActivity "t1" 99 c3store).2) :=
  ⟨by decide, by decide,
    c3_nonadmin_admin_action_noop ["1"] "d" "t1" 99 "admin_delete_user_email_execute:x@d:7"
      c3store (by decide) (by decide)⟩

/-- C5 counterexample.  In the first `worker.js` variant's callback router
(lines 220-246) `answerCallbackQuery` runs only *after* the dispatched
handler: for the `delete_cancel` action (whose entire handler is one
`editMessage` render) the trace is activity-read, activity-write, the
handler's render, and only then the acknowledgment — the first ack (index
3) comes after the handler's render (index 2), so the acknowledgment is
not issued before the handler's work. -/
theorem c5_ack_after_handler_v1 :
    (handleCallbackQueryV1 "d" "t1" 99 "delete_cancel" c3store).2 =
      [Ev.kvGet "user:99", Ev.kvPut "user:99", Ev.editMsg, Ev.ack ""] ∧
    (handleCallbackQueryV1 "d" "t1" 99 "delete_cancel" c3store).2.findIdx? isAck = some 3 ∧
    (handleCallbackQueryV1 "d" "t1" 99 "delete_cancel" c3store).2.findIdx?
      (fun e => e == Ev.editMsg) = some 2 := by
  refine ⟨?_, ?_, ?_⟩ <;> rfl

/-- C5 (amended).  In the actions-table router (`worker.js` lines 505-549)
the callback acknowledgment is the very first effect of every callback
event — before the activity tracking and before any storage read, storage
write or render of the dispatched handler. -/
theorem c5_ack_first_v2 (admins : List String) (domain now : String) (chat : Int)
    (data : String) (s : Store) :
    ∃ rest, (handleCallbackQueryV2 admins domain now chat data s).2 =
      Ev.ack "လုပ်ဆောင်နေပါသည်..." :: rest := by
  exact ⟨_, rfl⟩

/-- C4 counterexample.  The claim says a banned user's event still records
`lastActive` (processing up to step 2).  In the v7.1 `handleMessage`
(`part_002` lines 161-162) the ban check returns *before*
`updateUserData`: after the event at time `"t1"` the store is unchanged
and the banned user's `lastActive` is still `"t0"`, not the event time. -/
theorem c4_banned_lastActive_not_recorded :
    (handleMessage71 [] "t1" 9 "/start" c4store).1 = c4store ∧
    (aGet "9" (handleMessage71 [] "t1" 9 "/start" c4store).1).map (fun u => u.lastActive) =
      some "t0" ∧
    ("t0" : String) ≠ "t1" := by
  refine ⟨rfl, rfl, by decide⟩

/-- C4 (amended).  For a banned user, dispatch of commands, free text and
callback actions is suppressed: a message event performs only the record
read and is silently dropped (no reply, and — contrary to the claim — no
`lastActive` write), and a callback event receives exactly the immediate
acknowledgment carrying the "You are banned." notice. -/
theorem c4_banned_suppressed (admins : List String) (now : String) (chat : Int)
    (text data : String) (s : Store71)
    (hb : (getUserData71 now chat s).isBanned = true) :
    handleMessage71 admins now chat text s = (s, [Ev.kvGet ("user:" ++ toString chat)]) ∧
    handleCallbackQuery71 now chat data s =
      (s, [Ev.kvGet ("user:" ++ toString chat), Ev.ack "You are banned."]) := by
  constructor
  · unfold handleMessage71
    simp [hb]
  · unfold handleCallbackQuery71
    simp [hb]

/-- C4 witness: the amended theorem at the banned chat 9. -/
theorem c4_banned_suppressed_witness :
    (getUserData71 "t1" 9 c4store).isBanned = true ∧
    (handleMessage71 [] "t1" 9 "/start" c4store = (c4store, [Ev.kvGet "user:9"]) ∧
     handleCallbackQuery71 "t1" 9 "admin_stats" c4store =
       (c4store, [Ev.kvGet "user:9", Ev.ack "You are banned."])) :=
  ⟨by decide, c4_banned_suppressed [] "t1" 9 "/start" "admin_stats" c4store (by decide)⟩

/-- C6.  While the user record's `state` holds one of the pending-flow tags
(`awaiting_email_name`, `awaiting_forward_email`,
`awaiting_broadcast_message`, `awaiting_user_id_search`,
`awaiting_welcome_message`), the next free-text message is dispatched only
to the handler bound to that exact tag (for admin-only tags the handler
runs only for admins, and nothing else runs in its place), never to
another flow's handler and never to command parsing, and the state is
cleared to `none` and persisted by a write that comes *after* the bound
handler's invocation. -/
theorem c6_state_isolation (admins : List String) (now : String) (chat : Int)
    (text : String) (s : Store71) (st hName : String) (adminOnly : Bool)
    (hb : (getUserData71 now chat s).isBanned = false)
    (hst : (getUserData71 now chat s).state = some st)
    (hbh : boundHandler71 st = some (hName, adminOnly)) :
    (handleMessage71 admins now chat text s).2 =
      [Ev.kvGet ("user:" ++ toString chat), Ev.kvPut ("user:" ++ toString chat)] ++
        (if adminOnly && !(admins.contains (toString chat)) then []
         else [Ev.run hName]) ++ [Ev.kvPut ("user:" ++ toString chat)] ∧
    (∀ g, Ev.run g ∈ (handleMessage71 admins now chat text s).2 → g = hName) ∧
    (∀ c, Ev.cmd c ∉ (handleMessage71 admins now chat text s).2) ∧
    aGet (toString chat) (handleMessage71 admins now chat text s).1 =
      some { getUserData71 now chat s with state := none, lastActive := now } := by
  have hmain : handleMessage71 admins now chat text s =
      (aSet (toString chat) { getUserData71 now chat s with state := none, lastActive := now }
        (updateUserData71 now chat (getUserData71 now chat s) s),
       [Ev.kvGet ("user:" ++ toString chat), Ev.kvPut ("user:" ++ toString chat)] ++
         (if adminOnly && !(admins.contains (toString chat)) then []
          else [Ev.run hName]) ++ [Ev.kvPut ("user:" ++ toString chat)]) := by
    unfold handleMessage71
    simp only [hb, Bool.false_eq_true, if_false, hst, hbh]
  refine ⟨?_, ?_, ?_, ?_⟩
  · rw [hmain]
  · intro g hg
    rw [hmain] at hg
    by_cases hA : adminOnly && !(admins.contains (toString chat)) <;>
      simp [hA] at hg <;> tauto
  · intro c hc
    rw [hmain] at hc
    by_cases hA : adminOnly && !(admins.contains (toString chat)) <;>
      simp [hA] at hc
  · rw [hmain]
    unfold updateUserData71
    rw [aGet_aSet]
    simp

/-- C6 witness: a free-text message (that even looks like a broadcast)
from a user in `awaiting_email_name` goes only to `createNewEmail`, with
the clearing write last. -/
theorem c6_state_isolation_witness :
    (getUserData71 "t1" 5 c6store).isBanned = false ∧
    (getUserData71 "t1" 5 c6store).state = some "awaiting_email_name" ∧
    boundHandler71 "awaiting_email_name" = some ("createNewEmail", false) ∧
    ((handleMessage71 [] "t1" 5 "broadcast me" c6store).2 =
      [Ev.kvGet "user:5", Ev.kvPut "user:5"] ++
        (if false && !(([] : List String).contains (toString (5 : Int))) then []
         else [Ev.run "createNewEmail"]) ++ [Ev.kvPut "user:5"] ∧
    (∀ g, Ev.run g ∈ (handleMessage71 [] "t1" 5 "broadcast me" c6store).2 →
      g = "createNewEmail") ∧
    (∀ c, Ev.cmd c ∉ (handleMessage71 [] "t1" 5 "broadcast me" c6store).2) ∧
    aGet "5" (handleMessage71 [] "t1" 5 "broadcast me" c6store).1 =
      some { getUserData71 "t1" 5 c6store with state := none, lastActive := "t1" }) :=
  ⟨by decide, by decide, by decide,
    c6_state_isolation [] "t1" 5 "broadcast me" c6store "awaiting_email_name"
      "createNewEmail" false (by decide) (by decide) (by decide)⟩

/-- C9 counterexample.  After the reachable create/delete sequence above
(every token is one an earlier render produced), the address `x@d` appears
twice in chat 1's `createdEmails`, contradicting the claim that no
reachable sequence ever duplicates an address in any `createdEmails`
list. -/
theorem c9_duplicate_createdEmails :
    (aGet "1" c9s5.users).map (fun u => u.createdEmails) = some ["x@d", "x@d"] ∧
    ¬ (["x@d", "x@d"] : List String).Nodup := by
  exact ⟨by decide, by decide⟩

/-- Replacing one user record with one whose `createdEmails` is
duplicate-free preserves the invariant. -/
theorem nodupInv_aSet (l : List (String × UserRec20)) (k : String) (u : UserRec20)
    (h : ∀ k' u', aGet k' l = some u' → u'.createdEmails.Nodup)
    (hu : u.createdEmails.Nodup) :
    ∀ k' u', aGet k' (aSet k u l) = some u' → u'.createdEmails.Nodup := by
  intro k' u' h'
  rw [aGet_aSet] at h'
  split_ifs at h' with hk
  · cases h'
    exact hu
  · exact h k' u' h'

/-- Under the invariant, the loaded (or defaulted) user record has a
duplicate-free `createdEmails`. -/
theorem getUserData20_nodup (chat : Int) (s : Store20) (h : nodupInv s) :
    (getUserData20 chat s).createdEmails.Nodup := by
  unfold getUserData20
  cases hu : aGet (toString chat) s.users with
  | none => simp [hu]
  | some u0 => simpa [hu] using h (toString chat) u0 hu

/-- One v2.0 create/delete operation preserves the no-duplicates
invariant. -/
theorem nodupInv_execOp20 (domain : String) (s : Store20) (op : Op20) (h : nodupInv s) :
    nodupInv (execOp20 domain s op) := by
  cases op with
  | create chat name now =>
    simp only [execOp20, createNewEmailV20]
    by_cases hv : validName name = true
    · simp only [hv, if_true]
      cases hmb : aGet (lowerStr name ++ "@" ++ domain) s.mails with
      | some mb =>
        simp only [hmb]
        exact h
      | none =>
        simp only [hmb]
        intro k u hk
        refine nodupInv_aSet s.users (toString chat) _ h ?_ k u hk
        have hb : (getUserData20 chat s).createdEmails.Nodup := getUserData20_nodup chat s h
        split_ifs with hmem
        · exact hb
        · have hm : (lowerStr name ++ "@" ++ domain) ∉
              (getUserData20 chat s).createdEmails := hmem
          show ((getUserData20 chat s).createdEmails ++
            [lowerStr name ++ "@" ++ domain]).Nodup
          simp [List.nodup_append, hb, hm]
    · simp only [hv, if_false]
      exact h
  | del chat email now =>
    simp only [execOp20, deleteEmailV20]
    intro k u hk
    refine nodupInv_aSet s.users (toString chat) _ h ?_ k u hk
    exact List.Nodup.filter _ (getUserData20_nodup chat s h)

/-- C9 (amended).  Invoking `createNewEmail` with a name whose full
address already has a Mailbox record is always rejected without touching
any record (so there is never a second Mailbox for an address) — in both
the `worker.js` variant and the `part_002` v2.0 variant; and in the v2.0
variant, whose push into `createdEmails` is guarded by an `includes`
check, every reachable sequence of create and delete operations keeps
every user's `createdEmails` duplicate-free.  (In the `worker.js` variant
the push is unconditional and the counterexample's stale-delete sequence
duplicates an entry.) -/
theorem c9_creation_collision_amended :
    (∀ (domain now : String) (chat : Int) (name : String) (s : Store) (mb : Mailbox),
      validName name = true →
      aGet (lowerStr name ++ "@" ++ domain) s.mails = some mb →
      (createNewEmail domain now chat name s).1 = s) ∧
    (∀ (domain now : String) (chat : Int) (name : String) (s : Store20) (mb : Mailbox),
      validName name = true →
      aGet (lowerStr name ++ "@" ++ domain) s.mails = some mb →
      (createNewEmailV20 domain now chat name s).1 = s) ∧
    (∀ (domain : String) (ops : List Op20) (s : Store20),
      nodupInv s → nodupInv (exec20 domain ops s)) := by
  refine ⟨?_, ?_, ?_⟩
  · intro domain now chat name s mb hv hmb
    unfold createNewEmail
    simp [hv, hmb]
  · intro domain now chat name s mb hv hmb
    unfold createNewEmailV20
    simp [hv, hmb]
  · intro domain ops
    induction ops with
    | nil => intro s h; exact h
    | cons op rest ih =>
      intro s h
      exact ih _ (nodupInv_execOp20 domain s op h)

/-- C9 witness: colliding create rejected in both variants at a concrete
store; the invariant run over the counterexample-shaped op list on the
guarded v2.0 variant. -/
theorem c9_creation_collision_amended_witness :
    (validName "x" = true ∧
      aGet (lowerStr "x" ++ "@" ++ "d") c9s1.mails = some { inbox := [], owner := 2 } ∧
      (createNewEmail "d" "t9" 3 "x" c9s1).1 = c9s1) ∧
    (validName "x" = true ∧
      aGet (lowerStr "x" ++ "@" ++ "d")
          ({ users := [], mails := [("x@d", { inbox := [], owner := 2 })] } : Store20).mails =
        some { inbox := [], owner := 2 } ∧
      (createNewEmailV20 "d" "t9" 3 "x"
          { users := [], mails := [("x@d", { inbox := [], owner := 2 })] }).1 =
        { users := [], mails := [("x@d", { inbox := [], owner := 2 })] }) ∧
    (nodupInv (exec20 "d"
      [Op20.create 2 "x" "t1", Op20.del 2 "x@d" "t1", Op20.create 1 "x" "t2",
       Op20.del 2 "x@d" "t2", Op20.create 1 "x" "t3"]
      { users := [], mails := [] })) :=
  ⟨⟨by decide, by decide,
      c9_creation_collision_amended.1 "d" "t9" 3 "x" c9s1 { inbox := [], owner := 2 }
        (by decide) (by decide)⟩,
    ⟨by decide, by decide,
      c9_creation_collision_amended.2.1 "d" "t9" 3 "x"
        { users := [], mails := [("x@d", { inbox := [], owner := 2 })] }
        { inbox := [], owner := 2 } (by decide) (by decide)⟩,
    c9_creation_collision_amended.2.2 "d"
      [Op20.create 2 "x" "t1", Op20.del 2 "x@d" "t1", Op20.create 1 "x" "t2",
       Op20.del 2 "x@d" "t2", Op20.create 1 "x" "t3"]
      { users := [], mails := [] }
      (by intro k u hk; simp [aGet] at hk)⟩

/-- `hexVal` inverts `hexDigitCp` on nibbles. -/
theorem hexVal_hexDigitCp (n : Nat) (h : n < 16) : hexVal (hexDigitCp n) = some n := by
  unfold hexDigitCp hexVal
  by_cases h10 : n < 10
  · rw [if_pos h10, if_pos ⟨by omega, by omega⟩]
    congr 1
    omega
  · rw [if_neg h10, if_neg (by omega), if_pos ⟨by omega, by omega⟩]
    congr 1
    omega

/-- `byteVal` inverts the `%HH` digits of a byte. -/
theorem byteVal_pct (b : Nat) (h : b < 256) :
    byteVal (hexDigitCp (b / 16)) (hexDigitCp (b % 16)) = some b := by
  unfold byteVal
  rw [hexVal_hexDigitCp (b / 16) (by omega), hexVal_hexDigitCp (b % 16) (by omega)]
  show some (16 * (b / 16) + b % 16) = some b
  congr 1
  omega

/-- Percent-encoding one code point never yields the empty string. -/
theorem encodeCp_ne_nil (c : Nat) : encodeCp c ≠ [] := by
  unfold encodeCp utf8Bytes
  split_ifs <;> simp [pctByte]

/-- `decodeOne` inverts the percent-encoding of one code point, leaving
the rest of the input untouched. -/
theorem decodeOne_encodeCp (c : Nat) (hc : c < 1114112) (rest : List Nat) :
    decodeOne (encodeCp c ++ rest) = some (c, rest) := by
  by_cases hu : uriUnreserved c
  · have hc37 : ¬ c = 37 := by
      intro h
      subst h
      exact absurd hu (by decide)
    simp only [encodeCp, hu, if_true, List.cons_append, List.nil_append]
    rw [decodeOne, if_neg hc37]
  · simp only [encodeCp, hu, Bool.false_eq_true, if_false]
    unfold utf8Bytes
    by_cases h1 : c < 128
    · rw [if_pos h1]
      simp only [List.map_cons, List.map_nil, List.flatten_cons, List.flatten_nil, pctByte,
        List.append_nil, List.cons_append, List.nil_append]
      rw [decodeOne, if_pos rfl, pctGroup?, byteVal_pct c (by omega)]
      simp only [Option.map_some']
      rw [if_pos h1]
    · by_cases h2 : c < 2048
      · rw [if_neg h1, if_pos h2]
        simp only [List.map_cons, List.map_nil, List.flatten_cons, List.flatten_nil, pctByte,
          List.append_nil, List.cons_append, List.nil_append]
        rw [decodeOne, if_pos rfl, pctGroup?, byteVal_pct (192 + c / 64) (by omega)]
        simp only [Option.map_some']
        rw [if_neg (by omega), if_neg (by omega), if_pos (by omega)]
        rw [contBytes, pctGroup?, byteVal_pct (128 + c % 64) (by omega)]
        simp only [Option.map_some']
        rw [if_pos ⟨by omega, by omega⟩, contBytes]
        have hval : (192 + c / 64 - 192) * 64 + (128 + c % 64 - 128) = c := by omega
        rw [hval]
      · by_cases h3 : c < 65536
        · rw [if_neg h1, if_neg h2, if_pos h3]
          simp only [List.map_cons, List.map_nil, List.flatten_cons, List.flatten_nil,
            pctByte, List.append_nil, List.cons_append, List.nil_append]
          rw [decodeOne, if_pos rfl, pctGroup?, byteVal_pct (224 + c / 4096) (by omega)]
          simp only [Option.map_some']
          rw [if_neg (by omega), if_neg (by omega), if_neg (by omega), if_pos (by omega)]
          rw [contBytes, pctGroup?, byteVal_pct (128 + c / 64 % 64) (by omega)]
          simp only [Option.map_some']
          rw [if_pos ⟨by omega, by omega⟩]
          rw [contBytes, pctGroup?, byteVal_pct (128 + c % 64) (by omega)]
          simp only [Option.map_some']
          rw [if_pos ⟨by omega, by omega⟩, contBytes]
          have hval : ((224 + c / 4096 - 224) * 64 + (128 + c / 64 % 64 - 128)) * 64 +
              (128 + c % 64 - 128) = c := by omega
          rw [hval]
        · rw [if_neg h1, if_neg h2, if_neg h3]
          simp only [List.map_cons, List.map_nil, List.flatten_cons, List.flatten_nil,
            pctByte, List.append_nil, List.cons_append, List.nil_append]
          rw [decodeOne, if_pos rfl, pctGroup?, byteVal_pct (240 + c / 262144) (by omega)]
          simp only [Option.map_some']
          rw [if_neg (by omega), if_neg (by omega), if_neg (by omega), if_neg (by omega),
            if_pos (by omega)]
          rw [contBytes, pctGroup?, byteVal_pct (128 + c / 4096 % 64) (by omega)]
          simp only [Option.map_some']
          rw [if_pos ⟨by omega, by omega⟩]
          rw [contBytes, pctGroup?, byteVal_pct (128 + c / 64 % 64) (by omega)]
          simp only [Option.map_some']
          rw [if_pos ⟨by omega, by omega⟩]
          rw [contBytes, pctGroup?, byteVal_pct (128 + c % 64) (by omega)]
          simp only [Option.map_some']
          rw [if_pos ⟨by omega, by omega⟩, contBytes]
          have hval : (((240 + c / 262144 - 240) * 64 + (128 + c / 4096 % 64 - 128)) * 64 +
              (128 + c / 64 % 64 - 128)) * 64 + (128 + c % 64 - 128) = c := by omega
          rw [hval]

/-- Fuelled decoding inverts encoding once the fuel covers the length. -/
theorem decodeAux_encode (s : List Nat) : ∀ fuel, (∀ c ∈ s, c < 1114112) →
    (encode s).length ≤ fuel → decodeAux fuel (encode s) = some s := by
  induction s with
  | nil =>
    intro fuel _ _
    cases fuel <;> rfl
  | cons c t ih =>
    intro fuel hs hlen
    have hc : c < 1114112 := hs c (by simp)
    have ht : ∀ x ∈ t, x < 1114112 := fun x hx => hs x (by simp [hx])
    have hencct : encode (c :: t) = encodeCp c ++ encode t := by
      simp [encode]
    rw [hencct] at hlen ⊢
    have hlc : encodeCp c ≠ [] := encodeCp_ne_nil c
    cases henc : encodeCp c with
    | nil => exact absurd henc hlc
    | cons a as =>
      have hl1 : 1 + (encode t).length ≤ fuel := by
        rw [henc] at hlen
        simp [List.length_append] at hlen
        omega
      obtain ⟨f, rfl⟩ : ∃ f, fuel = f + 1 := ⟨fuel - 1, by omega⟩
      have hone : decodeOne (a :: (as ++ encode t)) = some (c, encode t) := by
        rw [← List.cons_append, ← henc]
        exact decodeOne_encodeCp c hc (encode t)
      have hstep : decodeAux (f + 1) (a :: (as ++ encode t)) =
          match decodeOne (a :: (as ++ encode t)) with
          | some cr => (decodeAux f cr.2).map (fun x => cr.1 :: x)
          | none => none := rfl
      rw [List.cons_append, hstep, hone]
      show (decodeAux f (encode t)).map (fun x => c :: x) = some (c :: t)
      rw [ih f ht (by omega)]
      rfl

/-- `decode (encode s) = s` for every string of code points below
`0x110000`. -/
theorem decode_encode (s : List Nat) (hs : ∀ c ∈ s, c < 1114112) :
    decode (encode s) = some s :=
  decodeAux_encode s (encode s).length hs le_rfl

/-- A hex digit is never the colon (58). -/
theorem hexDigitCp_ne_58 (n : Nat) : hexDigitCp n ≠ 58 := by
  unfold hexDigitCp
  split_ifs <;> omega

/-- Splitting a colon-free string yields the single part. -/
theorem splitColon_single (a : List Nat) (h : ∀ c ∈ a, c ≠ 58) : splitColon a = [a] := by
  induction a with
  | nil => rfl
  | cons c t ih =>
    have hc : ¬ c = 58 := h c (by simp)
    rw [splitColon, if_neg hc, ih (fun x hx => h x (by simp [hx]))]

/-- Splitting peels a colon-free prefix before a colon. -/
theorem splitColon_append (a : List Nat) (h : ∀ c ∈ a, c ≠ 58) (b : List Nat) :
    splitColon (a ++ 58 :: b) = a :: splitColon b := by
  induction a with
  | nil =>
    show splitColon (58 :: b) = [] :: splitColon b
    rw [splitColon, if_pos rfl]
  | cons c t ih =>
    have hc : ¬ c = 58 := h c (by simp)
    show splitColon (c :: (t ++ 58 :: b)) = (c :: t) :: splitColon b
    rw [splitColon, if_neg hc, ih (fun x hx => h x (by simp [hx]))]

/-- No character of a percent-encoded code point is the colon. -/
theorem encodeCp_no58 (c : Nat) : ∀ x ∈ encodeCp c, x ≠ 58 := by
  intro x hx
  unfold encodeCp at hx
  split_ifs at hx with hu
  · simp only [List.mem_singleton] at hx
    subst hx
    intro h
    subst h
    exact absurd hu (by decide)
  · simp only [List.mem_flatten, List.mem_map] at hx
    obtain ⟨l, ⟨b, _, rfl⟩, hxl⟩ := hx
    simp only [pctByte, List.mem_cons, List.not_mem_nil, or_false] at hxl
    rcases hxl with h | h | h <;> subst h
    · omega
    · exact hexDigitCp_ne_58 _
    · exact hexDigitCp_ne_58 _

/-- No character of an encoded argument is the colon. -/
theorem encode_no58 (s : List Nat) : ∀ x ∈ encode s, x ≠ 58 := by
  intro x hx
  simp only [encode, List.mem_flatten, List.mem_map] at hx
  obtain ⟨l, ⟨c, _, rfl⟩, hxl⟩ := hx
  exact encodeCp_no58 c x hxl

/-- Splitting on the colon inverts joining colon-free parts. -/
theorem splitColon_joinColon (p : List Nat) (ps : List (List Nat))
    (hp : ∀ c ∈ p, c ≠ 58) (hps : ∀ q ∈ ps, ∀ c ∈ q, c ≠ 58) :
    splitColon (joinColon (p :: ps)) = p :: ps := by
  induction ps generalizing p with
  | nil => exact splitColon_single p hp
  | cons q qs ih =>
    show splitColon (p ++ 58 :: joinColon (q :: qs)) = p :: q :: qs
    rw [splitColon_append p hp]
    rw [ih q (hps q (by simp)) (fun r hr => hps r (by simp [hr]))]

/-- C8.  For every argument string `s` (of Unicode scalar code points,
colon-unsafe and reserved characters included), `decode (encode s) = s`;
and for any token produced as `action:encode(arg1):...:encode(argk)`, the
router's parse — split on `:`, percent-decode each part after the action —
reconstructs exactly the action name and the original ordered argument
list. -/
theorem c8_token_roundtrip (s action : List Nat) (args : List (List Nat))
    (hs : ∀ c ∈ s, isScalarCp c)
    (hact : ∀ c ∈ action, c ≠ 58)
    (hargs : ∀ a ∈ args, ∀ c ∈ a, isScalarCp c) :
    decode (encode s) = some s ∧
    parse71 (joinColon (action :: args.map encode)) = (action, args.map Option.some) := by
  constructor
  · exact decode_encode s (fun c hc => (hs c hc).1)
  · unfold parse71
    rw [splitColon_joinColon action (args.map encode) hact
      (by
        intro q hq c hc
        simp only [List.mem_map] at hq
        obtain ⟨a, _, rfl⟩ := hq
        exact encode_no58 a c hc)]
    simp only [List.headD_cons, List.tail_cons, List.map_map]
    refine congrArg _ ?_
    apply List.map_congr_left
    intro a ha
    exact decode_encode a (fun c hc => (hargs a ha c hc).1)

/-- C8 witness: the round trip on `"a:b@c"` (code points 97,58,98,64,99)
and the parse of a produced two-argument token whose first argument
contains both `:` and `@`. -/
theorem c8_token_roundtrip_witness :
    (∀ c ∈ [97, 58, 98, 64, 99], isScalarCp c) ∧
    (∀ c ∈ [118, 95, 101], c ≠ 58) ∧
    (∀ a ∈ [[120, 58, 64], [51]], ∀ c ∈ a, isScalarCp c) ∧
    (decode (encode [97, 58, 98, 64, 99]) = some [97, 58, 98, 64, 99] ∧
      parse71 (joinColon ([118, 95, 101] :: ([[120, 58, 64], [51]] :
          List (List Nat)).map encode)) =
        ([118, 95, 101], ([[120, 58, 64], [51]] : List (List Nat)).map Option.some)) :=
  ⟨by decide, by decide, by decide,
    c8_token_roundtrip [97, 58, 98, 64, 99] [118, 95, 101] [[120, 58, 64], [51]]
      (by decide) (by decide) (by decide)⟩

/-- C5 witness: the amended theorem applied at a concrete callback event. -/
theorem c5_ack_first_v2_witness :
    ∃ rest, (handleCallbackQueryV2 ["1"] "d" "t1" 99 "view_inbox:a@d:2" c3store).2 =
      Ev.ack "လုပ်ဆောင်နေပါသည်..." :: rest :=
  c5_ack_first_v2 ["1"] "d" "t1" 99 "view_inbox:a@d:2" c3store
